import Mathlib

set_option maxRecDepth 20000

/-!
Shallow embedding of the microcode ROM generators of the k8bitcpu repository.

Namespace ControlWordsRom embeds src/control-words-rom.py: the 24-bit control
word constants, the 32-opcode instruction table, the four flag-expanded copies,
the address decomposition, the materialization loop over the 2048-entry address
range producing two byte images, and the control-word name decoder.

Namespace InstructionRom embeds src/instruction-rom.py: the earlier revision
with 8-bit left and right control words and explicit per-address assignments.

Python lists become Lean Lists of Nat; bytearray(2048) becomes a List Nat of
length 2048 that starts as all zeros; in-place index assignment becomes List.set;
the materialization for-loop becomes a left fold over List.range 2048.
-/

/-- Update the element at index i of a list by applying f, leaving the list
unchanged when i is out of range.  Models in-place update of a Python list
element at an index. -/
def listUpd {α : Type} : List α → Nat → (α → α) → List α
  | [], _, _ => []
  | a :: t, 0, f => f a :: t
  | a :: t, i + 1, f => a :: listUpd t i f

namespace ControlWordsRom

-- Control bits for the control words ROM, word 2 (bits 23-16).
def HL : Nat := 0b100000000000000000000000
def MI : Nat := 0b010000000000000000000000
def RI : Nat := 0b001000000000000000000000
def RO : Nat := 0b000100000000000000000000
def TR : Nat := 0b000010000000000000000000
def II : Nat := 0b000001000000000000000000
def AI : Nat := 0b000000100000000000000000
def AO : Nat := 0b000000010000000000000000

-- Control bits for the control words ROM, word 1 (bits 15-8).
def EO : Nat := 0b000000001000000000000000
def SU : Nat := 0b000000000100000000000000
def BI : Nat := 0b000000000010000000000000
def OI : Nat := 0b000000000001000000000000
def CE : Nat := 0b000000000000100000000000
def CO : Nat := 0b000000000000010000000000
def J  : Nat := 0b000000000000001000000000
def FI : Nat := 0b000000000000000100000000

-- Control bits for the control words ROM, word 0 (bits 7-0).
def BO : Nat := 0b000000000000000010000000
def UC : Nat := 0b000000000000000001000000
def SC : Nat := 0b000000000000000000100000
def CB : Nat := 0b000000000000000000010000
def C3 : Nat := 0b000000000000000000001000
def C2 : Nat := 0b000000000000000000000100
def C1 : Nat := 0b000000000000000000000010
def C0 : Nat := 0b000000000000000000000001

def FLAGS_Z0C0 : Nat := 0b00
def FLAGS_Z0C1 : Nat := 0b01
def FLAGS_Z1C0 : Nat := 0b10
def FLAGS_Z1C1 : Nat := 0b11

def JCS : Nat := 0b00000111
def JZS : Nat := 0b00001000

/-- The base instruction table: one row per 5-bit opcode, eight control words
per row, one per 3-bit step.  Transcribed from the instructions list of
src/control-words-rom.py. -/
def instructions : List (List Nat) := [
  [MI|||CO, RO|||II|||CE, TR,                        0,                         0,                      0,                      0,  0],
  [MI|||CO, RO|||II|||CE, CO|||MI,                   RO|||MI|||CE,              RO|||AI,                TR,                     0,  0],
  [MI|||CO, RO|||II|||CE, CO|||MI,                   RO|||MI|||CE,              RO|||BI,                EO|||AI|||FI,           TR, 0],
  [MI|||CO, RO|||II|||CE, CO|||MI,                   RO|||MI|||CE,              RO|||BI,                SU|||SC|||EO|||AI|||FI, TR, 0],
  [MI|||CO, RO|||II|||CE, CO|||MI,                   RO|||MI|||CE,              AO|||RI,                TR,                     0,  0],
  [MI|||CO, RO|||II|||CE, CO|||MI,                   RO|||AI|||CE,              TR,                     0,                      0,  0],
  [MI|||CO, RO|||II|||CE, CO|||MI,                   RO|||J,                    TR,                     0,                      0,  0],
  [MI|||CO, RO|||II|||CE, CE,                        TR,                        0,                      0,                      0,  0],
  [MI|||CO, RO|||II|||CE, CE,                        TR,                        0,                      0,                      0,  0],
  [MI|||CO, RO|||II|||CE, CO|||MI,                   RO|||BI|||CE,              EO|||AI|||FI,           TR,                     0,  0],
  [MI|||CO, RO|||II|||CE, CO|||MI,                   RO|||BI|||CE,              SC|||SU|||EO|||AI|||FI, TR,                     0,  0],
  [MI|||CO, RO|||II|||CE, MI,                        RI,                        J,                      TR,                     0,  0],
  [MI|||CO, RO|||II|||CE, CB|||SU|||SC|||FI,         TR,                        0,                      0,                      0,  0],
  [MI|||CO, RO|||II|||CE, CB|||FI,                   TR,                        0,                      0,                      0,  0],
  [MI|||CO, RO|||II|||CE, AO|||OI,                   TR,                        0,                      0,                      0,  0],
  [MI|||CO, RO|||II|||CE, HL,                        HL,                        0,                      0,                      0,  0],
  [MI|||CO, RO|||II|||CE, CO|||MI,                   RO|||MI|||CE,              RO|||BI,                UC|||EO|||AI|||FI,      TR, 0],
  [MI|||CO, RO|||II|||CE, CO|||MI,                   RO|||MI|||CE,              RO|||BI,                UC|||SU|||EO|||AI|||FI, TR, 0],
  [MI|||CO, RO|||II|||CE, CB|||SC|||EO|||AI|||FI,    TR,                        0,                      0,                      0,  0],
  [MI|||CO, RO|||II|||CE, CB|||SU|||EO|||AI|||FI,    TR,                        0,                      0,                      0,  0],
  [MI|||CO, RO|||II|||CE, TR,                        0,                         0,                      0,                      0,  0],
  [MI|||CO, RO|||II|||CE, TR,                        0,                         0,                      0,                      0,  0],
  [MI|||CO, RO|||II|||CE, TR,                        0,                         0,                      0,                      0,  0],
  [MI|||CO, RO|||II|||CE, TR,                        0,                         0,                      0,                      0,  0],
  [MI|||CO, RO|||II|||CE, TR,                        0,                         0,                      0,                      0,  0],
  [MI|||CO, RO|||II|||CE, TR,                        0,                         0,                      0,                      0,  0],
  [MI|||CO, RO|||II|||CE, TR,                        0,                         0,                      0,                      0,  0],
  [MI|||CO, RO|||II|||CE, TR,                        0,                         0,                      0,                      0,  0],
  [MI|||CO, RO|||II|||CE, TR,                        0,                         0,                      0,                      0,  0],
  [MI|||CO, RO|||II|||CE, TR,                        0,                         0,                      0,                      0,  0],
  [MI|||CO, RO|||II|||CE, TR,                        0,                         0,                      0,                      0,  0],
  [MI|||CO, RO|||II|||CE, TR,                        0,                         0,                      0,                      0,  0]
]

/-- Set step s of opcode op in flag variant f of a three-level table to value
v.  Models an assignment instructions_by_flag[f][op][s] = v. -/
def setStep (t : List (List (List Nat))) (f op s v : Nat) : List (List (List Nat)) :=
  listUpd t f (fun tf => listUpd tf op (fun row => row.set s v))

/-- Four copies of the base table, one per (zero flag, carry flag) combination,
with the conditional-jump rows patched in the variants where the tested flag is
set, exactly as in src/control-words-rom.py lines 156-172.  Deep copy of
immutable Lean lists is the identity, so the four copies start out equal to the
base table. -/
def instructions_by_flag : List (List (List Nat)) :=
  setStep (setStep (setStep
  (setStep (setStep (setStep
  (setStep (setStep (setStep
  (setStep (setStep (setStep
    [instructions, instructions, instructions, instructions]
    FLAGS_Z0C1 JCS 2 (CO|||MI)) FLAGS_Z0C1 JCS 3 (RO|||J)) FLAGS_Z0C1 JCS 4 TR)
    FLAGS_Z1C1 JCS 2 (CO|||MI)) FLAGS_Z1C1 JCS 3 (RO|||J)) FLAGS_Z1C1 JCS 4 TR)
    FLAGS_Z1C0 JZS 2 (CO|||MI)) FLAGS_Z1C0 JZS 3 (RO|||J)) FLAGS_Z1C0 JZS 4 TR)
    FLAGS_Z1C1 JZS 2 (CO|||MI)) FLAGS_Z1C1 JZS 3 (RO|||J)) FLAGS_Z1C1 JZS 4 TR

-- Address decomposition, from the loop body of src/control-words-rom.py.
def flagsOf (a : Nat) : Nat := (a &&& 0b11000000000) >>> 9
def byteSelectOf (a : Nat) : Nat := (a &&& 0b00100000000) >>> 8
def instructionOf (a : Nat) : Nat := (a &&& 0b00011111000) >>> 3
def stepOf (a : Nat) : Nat := a &&& 0b00000000111

/-- Address composition from the decomposed fields, as described by the
address layout: flag bits 10-9, byte select bit 8, opcode bits 7-3, step
bits 2-0. -/
def encodeAddr (f b op s : Nat) : Nat := (f <<< 9) ||| (b <<< 8) ||| (op <<< 3) ||| s

/-- Three-level table lookup t[f][op][s], with out-of-range defaults that are
never exercised on in-range indices. -/
def lookup3 (t : List (List (List Nat))) (f op s : Nat) : Nat :=
  (((t.getD f []).getD op []).getD s 0)

/-- The control word fetched for an address: instructions_by_flag indexed by
the decoded flags, instruction and step fields. -/
def cwAt (a : Nat) : Nat :=
  lookup3 instructions_by_flag (flagsOf a) (instructionOf a) (stepOf a)

/-- The byte stored in rom_data at an address: the middle word (bits 15-8)
when byte select is set, the high word (bits 23-16) otherwise. -/
def hiByte (a : Nat) : Nat :=
  if byteSelectOf a ≠ 0 then (cwAt a >>> 8) &&& 0xFF else (cwAt a >>> 16) &&& 0xFF

/-- The byte stored in rom_data_word0 at an address: the low word, bits 7-0. -/
def loByte (a : Nat) : Nat := (cwAt a >>> 0) &&& 0xFF

/-- One iteration of the materialization loop: store the selected slice of the
looked-up control word into both images at the current address. -/
def romStep (st : List Nat × List Nat) (a : Nat) : List Nat × List Nat :=
  (st.1.set a (hiByte a), st.2.set a (loByte a))

/-- The sequence of addresses the materialization loop writes, in order:
range(2048). -/
def cwWriteAddrs : List Nat := List.range 2048

/-- Both ROM images after the materialization loop has run over the whole
address range, starting from zero-filled 2048-byte arrays. -/
def rom_data_pair : List Nat × List Nat :=
  cwWriteAddrs.foldl romStep (List.replicate 2048 0, List.replicate 2048 0)

def rom_data : List Nat := rom_data_pair.1

def rom_data_word0 : List Nat := rom_data_pair.2

/-- The signal catalogue in declaration order, pairing each bit constant with
its name, from src/control-words-rom.py lines 203-228. -/
def CONTROL_BITS : List (Nat × String) := [
  (HL, "HL"), (MI, "MI"), (RI, "RI"), (RO, "RO"),
  (TR, "TR"), (II, "II"), (AI, "AI"), (AO, "AO"),
  (EO, "EO"), (SU, "SU"), (BI, "BI"), (OI, "OI"),
  (CE, "CE"), (CO, "CO"), (J,  "J"),  (FI, "FI"),
  (BO, "BO"), (UC, "UC"), (SC, "SC"), (CB, "CB"),
  (C3, "C3"), (C2, "C2"), (C1, "C1"), (C0, "C0")
]

/-- The separator the decoder joins signal names with: a vertical bar. -/
def SEP : String := "|"

/-- Decode a control word into the names of its asserted signals joined by a
vertical bar, catalogue order; the zero word gives the empty string.  The
Python loop that appends each matching name and then joins is the filter of
the catalogue by the bit test followed by the join. -/
def decode_control_word (word : Nat) : String :=
  if word = 0 then ""
  else String.intercalate SEP ((CONTROL_BITS.filter (fun bn => word &&& bn.1 ≠ 0)).map Prod.snd)

/-- The OR of the bit values of a list of catalogue entries: the control word
asserting exactly those signals. -/
def packBits (S : List (Nat × String)) : Nat := S.foldr (fun bn w => bn.1 ||| w) 0

/-- Two-level lookup t[op][s] in a flat instruction table. -/
def lookup2 (t : List (List Nat)) (op s : Nat) : Nat := (t.getD op []).getD s 0

/-- The number of steps of opcode op in flag variant f whose control word
asserts the jump signal. -/
def jCount (f op : Nat) : Nat :=
  ((List.range 8).filter (fun s => lookup3 instructions_by_flag f op s &&& J ≠ 0)).length

/-- The value of the flag tested by a conditional jump in flag combination f:
bit 0 of f is the carry flag (tested by JCS), bit 1 is the zero flag (tested
by JZS). -/
def testedFlag (f op : Nat) : Nat := if op = JZS then f >>> 1 else f &&& 1

/-- The control word at step s of opcode op in variant f asserts both CO and
MI, the signals that put the jump target address into the memory address
register. -/
def asserts_CO_MI (f op s : Nat) : Prop :=
  lookup3 instructions_by_flag f op s &&& (CO|||MI) = CO|||MI

instance (f op s : Nat) : Decidable (asserts_CO_MI f op s) := by
  unfold asserts_CO_MI; infer_instance

end ControlWordsRom

namespace InstructionRom

-- Control bits for the instruction ROM, left side.
def HL : Nat := 0b10000000
def MI : Nat := 0b01000000
def RI : Nat := 0b00100000
def RO : Nat := 0b00010000
def IOsig : Nat := 0b00001000  -- named IO in the source: Instruction Register Output
def II : Nat := 0b00000100
def AI : Nat := 0b00000010
def AO : Nat := 0b00000001

-- Control bits for the instruction ROM, right side.
def EO : Nat := 0b10000000
def SU : Nat := 0b01000000
def BI : Nat := 0b00100000
def OI : Nat := 0b00010000
def CE : Nat := 0b00001000
def CO : Nat := 0b00000100
def J  : Nat := 0b00000010
def FL : Nat := 0b00000001

def NIL : Nat := 0b00000000

-- Opcodes: the high four bits of the 7-bit address, shifted past the 3 step bits.
def NOP  : Nat := 0b00000000
def LDA  : Nat := 0b00001000
def ADD  : Nat := 0b00010000
def OP3  : Nat := 0b00011000
def OP4  : Nat := 0b00100000
def OP5  : Nat := 0b00101000
def OP6  : Nat := 0b00110000
def OP7  : Nat := 0b00111000
def OP8  : Nat := 0b01000000
def OP9  : Nat := 0b01001000
def OP10 : Nat := 0b01010000
def OP11 : Nat := 0b01011000
def OP12 : Nat := 0b01100000
def OP13 : Nat := 0b01101000
def OUT  : Nat := 0b01110000
def HLT  : Nat := 0b01111000

def STEP0 : Nat := 0b00000000
def STEP1 : Nat := 0b00000001
def STEP2 : Nat := 0b00000010
def STEP3 : Nat := 0b00000011
def STEP4 : Nat := 0b00000100

/-- The explicit index assignments made to lt_rom_data, in source order:
every line lt_rom_data[op | step] = v of src/instruction-rom.py. -/
def ltAssigns : List (Nat × Nat) := [
  (NOP|||STEP0, MI), (NOP|||STEP1, RO|||II), (NOP|||STEP2, NIL), (NOP|||STEP3, NIL), (NOP|||STEP4, NIL),
  (LDA|||STEP0, MI), (LDA|||STEP1, RO|||II), (LDA|||STEP2, MI ||| IOsig), (LDA|||STEP3, RO|||AI), (LDA|||STEP4, NIL),
  (ADD|||STEP0, MI), (ADD|||STEP1, RO|||II), (ADD|||STEP2, MI ||| IOsig), (ADD|||STEP3, RO), (ADD|||STEP4, AI),
  (OP3|||STEP0, MI), (OP3|||STEP1, RO|||II), (OP3|||STEP2, NIL), (OP3|||STEP3, NIL), (OP3|||STEP4, NIL),
  (OP4|||STEP0, MI), (OP4|||STEP1, RO|||II), (OP4|||STEP2, NIL), (OP4|||STEP3, NIL), (OP4|||STEP4, NIL),
  (OP5|||STEP0, MI), (OP5|||STEP1, RO|||II), (OP5|||STEP2, NIL), (OP5|||STEP3, NIL), (OP5|||STEP4, NIL),
  (OP6|||STEP0, MI), (OP6|||STEP1, RO|||II), (OP6|||STEP2, NIL), (OP6|||STEP3, NIL), (OP6|||STEP4, NIL),
  (OP7|||STEP0, MI), (OP7|||STEP1, RO|||II), (OP7|||STEP2, NIL), (OP7|||STEP3, NIL), (OP7|||STEP4, NIL),
  (OP8|||STEP0, MI), (OP8|||STEP1, RO|||II), (OP8|||STEP2, NIL), (OP8|||STEP3, NIL), (OP8|||STEP4, NIL),
  (OP9|||STEP0, MI), (OP9|||STEP1, RO|||II), (OP9|||STEP2, NIL), (OP9|||STEP3, NIL), (OP9|||STEP4, NIL),
  (OP10|||STEP0, MI), (OP10|||STEP1, RO|||II), (OP10|||STEP2, NIL), (OP10|||STEP3, NIL), (OP10|||STEP4, NIL),
  (OP11|||STEP0, MI), (OP11|||STEP1, RO|||II), (OP11|||STEP2, NIL), (OP11|||STEP3, NIL), (OP11|||STEP4, NIL),
  (OP12|||STEP0, MI), (OP12|||STEP1, RO|||II), (OP12|||STEP2, NIL), (OP12|||STEP3, NIL), (OP12|||STEP4, NIL),
  (OP13|||STEP0, MI), (OP13|||STEP1, RO|||II), (OP13|||STEP2, NIL), (OP13|||STEP3, NIL), (OP13|||STEP4, NIL),
  (OUT|||STEP0, MI), (OUT|||STEP1, RO|||II), (OUT|||STEP2, AO), (OUT|||STEP3, NIL), (OUT|||STEP4, NIL),
  (HLT|||STEP0, MI), (HLT|||STEP1, RO|||II), (HLT|||STEP2, HL), (HLT|||STEP3, NIL), (HLT|||STEP4, NIL)
]

/-- The explicit index assignments made to rt_rom_data, in source order. -/
def rtAssigns : List (Nat × Nat) := [
  (NOP|||STEP0, CO), (NOP|||STEP1, CE), (NOP|||STEP2, NIL), (NOP|||STEP3, NIL), (NOP|||STEP4, NIL),
  (LDA|||STEP0, CO), (LDA|||STEP1, CE), (LDA|||STEP2, NIL), (LDA|||STEP3, NIL), (LDA|||STEP4, NIL),
  (ADD|||STEP0, CO), (ADD|||STEP1, CE), (ADD|||STEP2, NIL), (ADD|||STEP3, BI), (ADD|||STEP4, EO),
  (OP3|||STEP0, CO), (OP3|||STEP1, CE), (OP3|||STEP2, NIL), (OP3|||STEP3, NIL), (OP3|||STEP4, NIL),
  (OP4|||STEP0, CO), (OP4|||STEP1, CE), (OP4|||STEP2, NIL), (OP4|||STEP3, NIL), (OP4|||STEP4, NIL),
  (OP5|||STEP0, CO), (OP5|||STEP1, CE), (OP5|||STEP2, NIL), (OP5|||STEP3, NIL), (OP5|||STEP4, NIL),
  (OP6|||STEP0, CO), (OP6|||STEP1, CE), (OP6|||STEP2, NIL), (OP6|||STEP3, NIL), (OP6|||STEP4, NIL),
  (OP7|||STEP0, CO), (OP7|||STEP1, CE), (OP7|||STEP2, NIL), (OP7|||STEP3, NIL), (OP7|||STEP4, NIL),
  (OP8|||STEP0, CO), (OP8|||STEP1, CE), (OP8|||STEP2, NIL), (OP8|||STEP3, NIL), (OP8|||STEP4, NIL),
  (OP9|||STEP0, CO), (OP9|||STEP1, CE), (OP9|||STEP2, NIL), (OP9|||STEP3, NIL), (OP9|||STEP4, NIL),
  (OP10|||STEP0, CO), (OP10|||STEP1, CE), (OP10|||STEP2, NIL), (OP10|||STEP3, NIL), (OP10|||STEP4, NIL),
  (OP11|||STEP0, CO), (OP11|||STEP1, CE), (OP11|||STEP2, NIL), (OP11|||STEP3, NIL), (OP11|||STEP4, NIL),
  (OP12|||STEP0, CO), (OP12|||STEP1, CE), (OP12|||STEP2, NIL), (OP12|||STEP3, NIL), (OP12|||STEP4, NIL),
  (OP13|||STEP0, CO), (OP13|||STEP1, CE), (OP13|||STEP2, NIL), (OP13|||STEP3, NIL), (OP13|||STEP4, NIL),
  (OUT|||STEP0, CO), (OUT|||STEP1, CE), (OUT|||STEP2, OI), (OUT|||STEP3, NIL), (OUT|||STEP4, NIL),
  (HLT|||STEP0, CO), (HLT|||STEP1, CE), (HLT|||STEP2, NIL), (HLT|||STEP3, NIL), (HLT|||STEP4, NIL)
]

/-- Apply a list of index assignments to a byte array in order. -/
def applyAssigns (assigns : List (Nat × Nat)) (init : List Nat) : List Nat :=
  assigns.foldl (fun l p => l.set p.1 p.2) init

/-- The left instruction ROM image: a zero-filled 2048-byte array after all
explicit assignments of src/instruction-rom.py. -/
def lt_rom_data : List Nat := applyAssigns ltAssigns (List.replicate 2048 0)

/-- The right instruction ROM image. -/
def rt_rom_data : List Nat := applyAssigns rtAssigns (List.replicate 2048 0)

end InstructionRom

/-! ## Helper lemmas -/

/-- Split a bounded universal over an interval into two pieces. -/
lemma ballAdd {P : Nat → Prop} {m n : Nat} (h1 : ∀ a, a < m → P a)
    (h2 : ∀ b, b < n → P (m + b)) : ∀ a, a < m + n → P a := by
  intro a ha
  rcases Nat.lt_or_ge a m with h | h
  · exact h1 a h
  · have e : a = m + (a - m) := by omega
    rw [e]
    exact h2 (a - m) (by omega)

namespace ControlWordsRom

/-- The materialization fold preserves the lengths of both images. -/
lemma romFold_length (l : List Nat) (st : List Nat × List Nat) :
    (l.foldl romStep st).1.length = st.1.length ∧
    (l.foldl romStep st).2.length = st.2.length := by
  induction l generalizing st with
  | nil => exact ⟨rfl, rfl⟩
  | cons b t ih =>
    have h := ih (romStep st b)
    simp only [List.foldl_cons]
    refine ⟨?_, ?_⟩
    · rw [h.1]; simp [romStep]
    · rw [h.2]; simp [romStep]

/-- Addresses the fold never visits keep their previous contents. -/
lemma romFold_get_not_mem (l : List Nat) (st : List Nat × List Nat) (a : Nat)
    (h : a ∉ l) :
    (l.foldl romStep st).1[a]? = st.1[a]? ∧
    (l.foldl romStep st).2[a]? = st.2[a]? := by
  induction l generalizing st with
  | nil => exact ⟨rfl, rfl⟩
  | cons b t ih =>
    have hne : b ≠ a := fun e => h (e ▸ List.mem_cons_self b t)
    have hnt : a ∉ t := fun m => h (List.mem_cons_of_mem b m)
    have hh := ih (romStep st b) hnt
    simp only [List.foldl_cons]
    refine ⟨?_, ?_⟩
    · rw [hh.1]; simp [romStep, List.getElem?_set_ne hne]
    · rw [hh.2]; simp [romStep, List.getElem?_set_ne hne]

/-- An address visited by the fold ends up holding the loop-body bytes for
that address, provided the visited addresses are pairwise distinct and the
address is inside both images. -/
lemma romFold_get_mem (l : List Nat) (st : List Nat × List Nat) (a : Nat)
    (hnd : l.Nodup) (hmem : a ∈ l) (h1 : a < st.1.length) (h2 : a < st.2.length) :
    (l.foldl romStep st).1[a]? = some (hiByte a) ∧
    (l.foldl romStep st).2[a]? = some (loByte a) := by
  induction l generalizing st with
  | nil => cases hmem
  | cons b t ih =>
    simp only [List.foldl_cons]
    rcases List.mem_cons.mp hmem with rfl | hmem'
    · have hnt : a ∉ t := (List.nodup_cons.mp hnd).1
      have hpres := romFold_get_not_mem t (romStep st a) a hnt
      refine ⟨?_, ?_⟩
      · rw [hpres.1]; simp [romStep, List.getElem?_set_self h1]
      · rw [hpres.2]; simp [romStep, List.getElem?_set_self h2]
    · exact ih (romStep st b) (List.nodup_cons.mp hnd).2 hmem'
        (by simp [romStep, h1]) (by simp [romStep, h2])

end ControlWordsRom

namespace ControlWordsRom

/-- An OR with a nonzero left operand is nonzero. -/
lemma lor_ne_zero_left {x y : Nat} (h : x ≠ 0) : x ||| y ≠ 0 := by
  obtain ⟨i, hi⟩ := Nat.ne_zero_implies_bit_true h
  intro hz
  have ht : (x ||| y).testBit i = true := by simp [Nat.testBit_or, hi]
  rw [hz] at ht
  simp at ht

/-- A pack over entries all bit-disjoint from b is bit-disjoint from b. -/
lemma packBits_and_eq_zero {b : Nat} {S : List (Nat × String)}
    (h : ∀ x ∈ S, x.1 &&& b = 0) : packBits S &&& b = 0 := by
  induction S with
  | nil => simp [packBits]
  | cons x t ih =>
    have e : packBits (x :: t) = x.1 ||| packBits t := rfl
    rw [e, Nat.and_distrib_right, h x (List.mem_cons_self x t),
      ih (fun y hy => h y (List.mem_cons_of_mem x hy))]
    rfl

/-- Filtering a catalogue of nonzero, pairwise bit-disjoint entries by the bit
test against the pack of a sub-selection recovers exactly that sub-selection. -/
lemma filter_pack {l S : List (Nat × String)}
    (hnz : ∀ x ∈ l, x.1 ≠ 0)
    (hdisj : l.Pairwise (fun x y => x.1 &&& y.1 = 0))
    (hS : S.Sublist l) :
    l.filter (fun bn => packBits S &&& bn.1 ≠ 0) = S := by
  induction hS with
  | slnil => rfl
  | cons b hS ih =>
    rename_i S1 l2
    have hd := List.pairwise_cons.mp hdisj
    have hb : packBits S1 &&& b.1 = 0 := by
      refine packBits_and_eq_zero (fun x hx => ?_)
      have hxl : x ∈ l2 := hS.subset hx
      rw [Nat.and_comm]
      exact hd.1 x hxl
    have hnz2 : ∀ x ∈ l2, x.1 ≠ 0 := fun x hx => hnz x (List.mem_cons_of_mem b hx)
    rw [List.filter_cons, if_neg (by simp [hb])]
    exact ih hnz2 hd.2
  | cons₂ b hS ih =>
    rename_i S1 l2
    have hd := List.pairwise_cons.mp hdisj
    have hnz2 : ∀ x ∈ l2, x.1 ≠ 0 := fun x hx => hnz x (List.mem_cons_of_mem b hx)
    have hbnz : b.1 ≠ 0 := hnz b (List.mem_cons_self b l2)
    have e : packBits (b :: S1) = b.1 ||| packBits S1 := rfl
    have hhead : packBits (b :: S1) &&& b.1 ≠ 0 := by
      rw [e, Nat.and_distrib_right, Nat.and_self]
      exact lor_ne_zero_left hbnz
    have htail : ∀ x ∈ l2,
        decide (packBits (b :: S1) &&& x.1 ≠ 0) = decide (packBits S1 &&& x.1 ≠ 0) := by
      intro x hx
      have : packBits (b :: S1) &&& x.1 = packBits S1 &&& x.1 := by
        rw [e, Nat.and_distrib_right, hd.1 x hx, Nat.zero_or]
      rw [this]
    rw [List.filter_cons, if_pos (decide_eq_true hhead),
      List.filter_congr htail, ih hnz2 hd.2]

end ControlWordsRom

namespace InstructionRom

/-- Applying assignments preserves the array length. -/
lemma applyAssigns_length (assigns : List (Nat × Nat)) (init : List Nat) :
    (applyAssigns assigns init).length = init.length := by
  induction assigns generalizing init with
  | nil => rfl
  | cons p t ih =>
    have h := ih (init.set p.1 p.2)
    simpa [applyAssigns] using h

/-- An index that no assignment touches keeps its initial contents. -/
lemma applyAssigns_get_not_mem (assigns : List (Nat × Nat)) (init : List Nat)
    (a : Nat) (h : a ∉ assigns.map Prod.fst) :
    (applyAssigns assigns init)[a]? = init[a]? := by
  induction assigns generalizing init with
  | nil => rfl
  | cons p t ih =>
    have hne : p.1 ≠ a := by
      intro e
      exact h (e ▸ List.mem_map_of_mem Prod.fst (List.mem_cons_self p t))
    have hnt : a ∉ t.map Prod.fst := by
      intro m
      rcases List.mem_map.mp m with ⟨q, hq, hqa⟩
      exact h (List.mem_map.mpr ⟨q, List.mem_cons_of_mem p hq, hqa⟩)
    have hh := ih (init.set p.1 p.2) hnt
    calc (applyAssigns (p :: t) init)[a]? = (applyAssigns t (init.set p.1 p.2))[a]? := rfl
      _ = (init.set p.1 p.2)[a]? := hh
      _ = init[a]? := List.getElem?_set_ne hne

end InstructionRom

/-- Split a bounded universal over 0..2047 into four 512-wide pieces. -/
lemma ball2048 {P : Nat → Prop}
    (h0 : ∀ a, a < 512 → P a) (h1 : ∀ a, a < 512 → P (512 + a))
    (h2 : ∀ a, a < 512 → P (1024 + a)) (h3 : ∀ a, a < 512 → P (1536 + a)) :
    ∀ a, a < 2048 → P a := by
  have h := ballAdd (ballAdd (ballAdd h0 h1) h2) h3
  intro a ha
  exact h a (by omega)

namespace ControlWordsRom

/-- C2: Address Codec bijection.  For every address a below 2048, re-encoding
the decoded fields as (flags shifted left 9) OR (byte select shifted left 8)
OR (opcode shifted left 3) OR step yields a again; and for every tuple with
flags below 4, byte select below 2, opcode below 32 and step below 8, decoding
its encoding returns the same tuple. -/
theorem claim_C2 :
    (∀ a, a < 2048 →
      encodeAddr (flagsOf a) (byteSelectOf a) (instructionOf a) (stepOf a) = a) ∧
    (∀ f, f < 4 → ∀ b, b < 2 → ∀ op, op < 32 → ∀ s, s < 8 →
      flagsOf (encodeAddr f b op s) = f ∧ byteSelectOf (encodeAddr f b op s) = b ∧
      instructionOf (encodeAddr f b op s) = op ∧ stepOf (encodeAddr f b op s) = s) := by
  constructor
  · exact ball2048 (by decide) (by decide) (by decide) (by decide)
  · decide

/-- C2 witness: the round trips at address 1234 and at the tuple
(3, 1, 31, 7). -/
theorem claim_C2_witness :
    (1234 < 2048 ∧
      encodeAddr (flagsOf 1234) (byteSelectOf 1234) (instructionOf 1234) (stepOf 1234) = 1234) ∧
    (flagsOf (encodeAddr 3 1 31 7) = 3 ∧ byteSelectOf (encodeAddr 3 1 31 7) = 1 ∧
      instructionOf (encodeAddr 3 1 31 7) = 31 ∧ stepOf (encodeAddr 3 1 31 7) = 7) :=
  ⟨⟨by decide, claim_C2.1 1234 (by decide)⟩,
    claim_C2.2 3 (by decide) 1 (by decide) 31 (by decide) 7 (by decide)⟩

/-- C1: ROM materializer correctness.  For every address a below 2048, with
fields decoded as flags, byte select, opcode and step, rom_data holds bits
15-8 of the table entry when byte select is 1 and bits 23-16 when it is 0,
and rom_data_word0 holds bits 7-0 of the same entry; both images are assigned
(hold some byte) at every address in range. -/
theorem claim_C1 (a : Nat) (ha : a < 2048) :
    (byteSelectOf a = 1 → rom_data[a]? =
      some ((lookup3 instructions_by_flag (flagsOf a) (instructionOf a) (stepOf a) >>> 8) &&& 0xFF)) ∧
    (byteSelectOf a = 0 → rom_data[a]? =
      some ((lookup3 instructions_by_flag (flagsOf a) (instructionOf a) (stepOf a) >>> 16) &&& 0xFF)) ∧
    rom_data_word0[a]? =
      some (lookup3 instructions_by_flag (flagsOf a) (instructionOf a) (stepOf a) &&& 0xFF) := by
  have hm := romFold_get_mem cwWriteAddrs (List.replicate 2048 0, List.replicate 2048 0) a
    (by simpa [cwWriteAddrs] using List.nodup_range 2048)
    (by simpa [cwWriteAddrs] using List.mem_range.mpr ha)
    (by simpa using ha) (by simpa using ha)
  have e1 : rom_data[a]? =
      (cwWriteAddrs.foldl romStep (List.replicate 2048 0, List.replicate 2048 0)).1[a]? := rfl
  have e2 : rom_data_word0[a]? =
      (cwWriteAddrs.foldl romStep (List.replicate 2048 0, List.replicate 2048 0)).2[a]? := rfl
  refine ⟨?_, ?_, ?_⟩
  · intro hbs
    have hb : hiByte a = (cwAt a >>> 8) &&& 0xFF := by
      unfold hiByte
      rw [hbs]
      simp
    rw [e1, hm.1, hb]
    rfl
  · intro hbs
    have hb : hiByte a = (cwAt a >>> 16) &&& 0xFF := by
      unfold hiByte
      rw [hbs]
      simp
    rw [e1, hm.1, hb]
    rfl
  · have hb : loByte a = cwAt a &&& 0xFF := by
      unfold loByte
      rw [Nat.shiftRight_zero]
    rw [e2, hm.2, hb]
    rfl

/-- C1 witness: the materialized bytes at addresses 256 (byte select 1) and
0 (byte select 0). -/
theorem claim_C1_witness :
    (256 < 2048 ∧ (byteSelectOf 256 = 1 → rom_data[256]? =
      some ((lookup3 instructions_by_flag (flagsOf 256) (instructionOf 256) (stepOf 256) >>> 8) &&& 0xFF))) ∧
    (0 < 2048 ∧ (byteSelectOf 0 = 0 → rom_data[0]? =
      some ((lookup3 instructions_by_flag (flagsOf 0) (instructionOf 0) (stepOf 0) >>> 16) &&& 0xFF))) :=
  ⟨⟨by decide, (claim_C1 256 (by decide)).1⟩, ⟨by decide, (claim_C1 0 (by decide)).2.1⟩⟩

end ControlWordsRom

namespace ControlWordsRom

/-- C3: flag expansion perturbs only the flag-dependent opcodes.  Every opcode
other than JCS and JZS has, at every step, the same control word in all four
flag variants as in the base table; and even JCS and JZS keep the base fetch
steps 0 and 1 in every variant. -/
theorem claim_C3 :
    (∀ op, op < 32 → op ≠ JCS → op ≠ JZS → ∀ f, f < 4 → ∀ s, s < 8 →
      lookup3 instructions_by_flag f op s = lookup2 instructions op s) ∧
    (∀ f, f < 4 → ∀ s, s < 2 →
      lookup3 instructions_by_flag f JCS s = lookup2 instructions JCS s ∧
      lookup3 instructions_by_flag f JZS s = lookup2 instructions JZS s) := by
  constructor
  · decide
  · decide

/-- C3 witness: opcode 2 step 3 agrees with the base in variant 1, and the
fetch steps of JCS and JZS agree with the base in variant 3. -/
theorem claim_C3_witness :
    (lookup3 instructions_by_flag 1 2 3 = lookup2 instructions 2 3) ∧
    (lookup3 instructions_by_flag 3 JCS 0 = lookup2 instructions JCS 0 ∧
      lookup3 instructions_by_flag 3 JZS 0 = lookup2 instructions JZS 0) :=
  ⟨claim_C3.1 2 (by decide) (by decide) (by decide) 1 (by decide) 3 (by decide),
    claim_C3.2 3 (by decide) 0 (by decide)⟩

/-- C5: fetch invariant.  In the base table and in all four flag variants,
every opcode has step 0 equal to exactly MI OR CO and step 1 equal to exactly
RO OR II OR CE. -/
theorem claim_C5 :
    (∀ op, op < 32 →
      lookup2 instructions op 0 = MI|||CO ∧ lookup2 instructions op 1 = RO|||II|||CE) ∧
    (∀ f, f < 4 → ∀ op, op < 32 →
      lookup3 instructions_by_flag f op 0 = MI|||CO ∧
      lookup3 instructions_by_flag f op 1 = RO|||II|||CE) := by
  constructor
  · decide
  · decide

/-- C5 witness: the fetch steps of opcode 11 in the base table and of opcode
8 in flag variant 2. -/
theorem claim_C5_witness :
    (lookup2 instructions 11 0 = MI|||CO ∧ lookup2 instructions 11 1 = RO|||II|||CE) ∧
    (lookup3 instructions_by_flag 2 8 0 = MI|||CO ∧
      lookup3 instructions_by_flag 2 8 1 = RO|||II|||CE) :=
  ⟨claim_C5.1 11 (by decide), claim_C5.2 2 (by decide) 8 (by decide)⟩

lemma jcsClear : ∀ f, f < 4 →
    (testedFlag f JCS = 0 → ∀ s, s < 8 → lookup3 instructions_by_flag f JCS s &&& J = 0) := by
  decide

lemma jcsCount : ∀ f, f < 4 → (testedFlag f JCS ≠ 0 → jCount f JCS = 1) := by
  decide

lemma jcsAdj : ∀ f, f < 4 →
    (∀ s, s < 8 → lookup3 instructions_by_flag f JCS s &&& J ≠ 0 →
      (1 ≤ s ∧ asserts_CO_MI f JCS (s - 1)) ∨ asserts_CO_MI f JCS s ∨
      (s + 1 < 8 ∧ asserts_CO_MI f JCS (s + 1))) := by
  decide

lemma jzsClear : ∀ f, f < 4 →
    (testedFlag f JZS = 0 → ∀ s, s < 8 → lookup3 instructions_by_flag f JZS s &&& J = 0) := by
  decide

lemma jzsCount : ∀ f, f < 4 → (testedFlag f JZS ≠ 0 → jCount f JZS = 1) := by
  decide

lemma jzsAdj : ∀ f, f < 4 →
    (∀ s, s < 8 → lookup3 instructions_by_flag f JZS s &&& J ≠ 0 →
      (1 ≤ s ∧ asserts_CO_MI f JZS (s - 1)) ∨ asserts_CO_MI f JZS s ∨
      (s + 1 < 8 ∧ asserts_CO_MI f JZS (s + 1))) := by
  decide

/-- C4: conditional-jump behavior.  In every flag variant, when the flag a
conditional jump tests is clear its row never asserts J at any step; when the
tested flag is set the row asserts J at exactly one step, and at that step or
an adjacent one the row asserts both CO and MI, the signals that put the jump
target address into the memory address register. -/
theorem claim_C4 :
    ∀ f, f < 4 →
    ((testedFlag f JCS = 0 → ∀ s, s < 8 → lookup3 instructions_by_flag f JCS s &&& J = 0) ∧
     (testedFlag f JCS ≠ 0 → jCount f JCS = 1 ∧
       (∀ s, s < 8 → lookup3 instructions_by_flag f JCS s &&& J ≠ 0 →
         (1 ≤ s ∧ asserts_CO_MI f JCS (s - 1)) ∨ asserts_CO_MI f JCS s ∨
         (s + 1 < 8 ∧ asserts_CO_MI f JCS (s + 1))))) ∧
    ((testedFlag f JZS = 0 → ∀ s, s < 8 → lookup3 instructions_by_flag f JZS s &&& J = 0) ∧
     (testedFlag f JZS ≠ 0 → jCount f JZS = 1 ∧
       (∀ s, s < 8 → lookup3 instructions_by_flag f JZS s &&& J ≠ 0 →
         (1 ≤ s ∧ asserts_CO_MI f JZS (s - 1)) ∨ asserts_CO_MI f JZS s ∨
         (s + 1 < 8 ∧ asserts_CO_MI f JZS (s + 1))))) := by
  intro f hf
  exact ⟨⟨jcsClear f hf, fun h => ⟨jcsCount f hf h, jcsAdj f hf⟩⟩,
    ⟨jzsClear f hf, fun h => ⟨jzsCount f hf h, jzsAdj f hf⟩⟩⟩

/-- C4 witness: in variant 1 (carry set, zero clear) JCS takes the jump in
exactly one step and JZS never asserts J. -/
theorem claim_C4_witness :
    (jCount 1 JCS = 1) ∧ (lookup3 instructions_by_flag 1 JZS 3 &&& J = 0) :=
  ⟨((claim_C4 1 (by decide)).1.2 (by decide)).1,
    (claim_C4 1 (by decide)).2.1 (by decide) 3 (by decide)⟩

end ControlWordsRom

namespace ControlWordsRom

/-- C10: address layout exactness and lookup safety.  The field widths 2, 1,
5 and 3 sum to the 11-bit address width of the 2048-entry images; for every
in-range address the decoded fields are within 4, 2, 32 and 8, the decoded
indices are inside the table at every level, the table entry fits in 24 bits,
and both extracted byte slices are below 256. -/
theorem claim_C10 :
    2 + 1 + 5 + 3 = 11 ∧
    rom_data.length = 2 ^ 11 ∧ rom_data_word0.length = 2 ^ 11 ∧
    instructions_by_flag.length = 4 ∧
    (∀ a, a < 2048 →
      flagsOf a < 4 ∧ byteSelectOf a < 2 ∧ instructionOf a < 32 ∧ stepOf a < 8 ∧
      instructionOf a < (instructions_by_flag.getD (flagsOf a) []).length ∧
      stepOf a < ((instructions_by_flag.getD (flagsOf a) []).getD (instructionOf a) []).length ∧
      lookup3 instructions_by_flag (flagsOf a) (instructionOf a) (stepOf a) < 2 ^ 24 ∧
      hiByte a < 256 ∧ loByte a < 256) := by
  have hl := romFold_length cwWriteAddrs (List.replicate 2048 0, List.replicate 2048 0)
  have e1 : rom_data.length =
      (cwWriteAddrs.foldl romStep (List.replicate 2048 0, List.replicate 2048 0)).1.length := rfl
  have e2 : rom_data_word0.length =
      (cwWriteAddrs.foldl romStep (List.replicate 2048 0, List.replicate 2048 0)).2.length := rfl
  refine ⟨by norm_num, ?_, ?_, by decide, ?_⟩
  · rw [e1, hl.1]
    simp
  · rw [e2, hl.2]
    simp
  · exact ball2048 (by decide) (by decide) (by decide) (by decide)

/-- C10 witness: the decoded fields and bounds at the last address, 2047. -/
theorem claim_C10_witness :
    2047 < 2048 ∧
    (flagsOf 2047 < 4 ∧ byteSelectOf 2047 < 2 ∧ instructionOf 2047 < 32 ∧ stepOf 2047 < 8 ∧
      instructionOf 2047 < (instructions_by_flag.getD (flagsOf 2047) []).length ∧
      stepOf 2047 < ((instructions_by_flag.getD (flagsOf 2047) []).getD (instructionOf 2047) []).length ∧
      lookup3 instructions_by_flag (flagsOf 2047) (instructionOf 2047) (stepOf 2047) < 2 ^ 24 ∧
      hiByte 2047 < 256 ∧ loByte 2047 < 256) :=
  ⟨by decide, claim_C10.2.2.2.2 2047 (by decide)⟩

/-- C8: decode exporter round trip and ordering.  For every selection S of
catalogue signals (a sublist of CONTROL_BITS, which fixes catalogue order),
decoding the OR of the signals in S gives exactly the names in S joined by the
separator in catalogue order; OR-ing the constants of the signals the decoder
names recovers the input word; and the zero word decodes to the empty
string. -/
theorem claim_C8 (S : List (Nat × String)) (hS : S.Sublist CONTROL_BITS) :
    decode_control_word (packBits S) = String.intercalate SEP (S.map Prod.snd) ∧
    packBits (CONTROL_BITS.filter (fun bn => packBits S &&& bn.1 ≠ 0)) = packBits S ∧
    decode_control_word 0 = "" := by
  have hnz : ∀ x ∈ CONTROL_BITS, x.1 ≠ 0 := by decide
  have hdisj : CONTROL_BITS.Pairwise (fun x y => x.1 &&& y.1 = 0) := by decide
  have hf := filter_pack hnz hdisj hS
  refine ⟨?_, by rw [hf], rfl⟩
  cases S with
  | nil => rfl
  | cons x t =>
    have hxnz : x.1 ≠ 0 := hnz x (hS.subset (List.mem_cons_self x t))
    have hpnz : packBits (x :: t) ≠ 0 := by
      have e : packBits (x :: t) = x.1 ||| packBits t := rfl
      rw [e]
      exact lor_ne_zero_left hxnz
    rw [decode_control_word, if_neg hpnz, hf]

/-- C8 witness: the selection holding MI and CO decodes to the two names in
catalogue order and packs back to itself. -/
theorem claim_C8_witness :
    decode_control_word (packBits [(MI, "MI"), (CO, "CO")]) =
      String.intercalate SEP ([(MI, "MI"), (CO, "CO")].map Prod.snd) ∧
    packBits (CONTROL_BITS.filter
      (fun bn => packBits [(MI, "MI"), (CO, "CO")] &&& bn.1 ≠ 0)) =
      packBits [(MI, "MI"), (CO, "CO")] ∧
    decode_control_word 0 = "" :=
  claim_C8 [(MI, "MI"), (CO, "CO")] (by decide)

end ControlWordsRom

namespace InstructionRom

/-- With pairwise distinct assignment indices, an assigned index of the array
holds its assigned value. -/
lemma applyAssigns_get_mem (assigns : List (Nat × Nat)) (init : List Nat)
    (i v : Nat) (hnd : (assigns.map Prod.fst).Nodup) (hmem : (i, v) ∈ assigns)
    (hlen : i < init.length) :
    (applyAssigns assigns init)[i]? = some v := by
  induction assigns generalizing init with
  | nil => cases hmem
  | cons p t ih =>
    have e2 : (p :: t).map Prod.fst = p.1 :: t.map Prod.fst := rfl
    rw [e2] at hnd
    have hnd1 := List.nodup_cons.mp hnd
    rcases List.mem_cons.mp hmem with heq | hmem2
    · have hi1 : p.1 = i := by rw [← heq]
      have hv1 : p.2 = v := by rw [← heq]
      have hnt : i ∉ t.map Prod.fst := hi1 ▸ hnd1.1
      have e : applyAssigns (p :: t) init = applyAssigns t (init.set p.1 p.2) := rfl
      rw [e, applyAssigns_get_not_mem t _ i hnt, hi1, hv1]
      exact List.getElem?_set_self hlen
    · have e : applyAssigns (p :: t) init = applyAssigns t (init.set p.1 p.2) := rfl
      rw [e]
      exact ih (init.set p.1 p.2) hnd1.2 hmem2 (by simpa using hlen)

/-- An assigned index of the left instruction ROM holds its assigned value. -/
lemma lt_at (i v : Nat) (hmem : (i, v) ∈ ltAssigns) (hi : i < 2048) :
    lt_rom_data[i]? = some v := by
  have e : lt_rom_data[i]? = (applyAssigns ltAssigns (List.replicate 2048 0))[i]? := rfl
  rw [e]
  exact applyAssigns_get_mem ltAssigns _ i v (by decide) hmem (by simpa using hi)

/-- An assigned index of the right instruction ROM holds its assigned value. -/
lemma rt_at (i v : Nat) (hmem : (i, v) ∈ rtAssigns) (hi : i < 2048) :
    rt_rom_data[i]? = some v := by
  have e : rt_rom_data[i]? = (applyAssigns rtAssigns (List.replicate 2048 0))[i]? := rfl
  rw [e]
  exact applyAssigns_get_mem rtAssigns _ i v (by decide) hmem (by simpa using hi)

/-- An unassigned in-range index of the left instruction ROM holds the zero
fill. -/
lemma lt_zero (i : Nat) (h : i ∉ ltAssigns.map Prod.fst) (hi : i < 2048) :
    lt_rom_data[i]? = some 0 := by
  have e : lt_rom_data[i]? = (applyAssigns ltAssigns (List.replicate 2048 0))[i]? := rfl
  rw [e, applyAssigns_get_not_mem ltAssigns _ i h]
  exact List.getElem?_replicate_of_lt hi

/-- An unassigned in-range index of the right instruction ROM holds the zero
fill. -/
lemma rt_zero (i : Nat) (h : i ∉ rtAssigns.map Prod.fst) (hi : i < 2048) :
    rt_rom_data[i]? = some 0 := by
  have e : rt_rom_data[i]? = (applyAssigns rtAssigns (List.replicate 2048 0))[i]? := rfl
  rw [e, applyAssigns_get_not_mem rtAssigns _ i h]
  exact List.getElem?_replicate_of_lt hi

end InstructionRom

namespace ControlWordsRom

/-- C6 counterexample: in flag variant 0 the NOP row holds TR at step 2, a
nonzero control word, so steps 2 through 7 of NOP are not all zero as the
claim states. -/
theorem claim_C6_cex :
    lookup3 instructions_by_flag 0 0 2 = TR ∧ TR ≠ 0 := by
  constructor
  · decide
  · decide

/-- C6 amended: for the NOP opcode, in every flag variant, step 0 asserts
exactly MI OR CO, step 1 exactly RO OR II OR CE, step 2 exactly TR (the step
counter reset), and steps 3 through 7 assert nothing; in the instruction-rom
revision the NOP rows hold MI and CO at step 0, RO OR II and CE at step 1,
and zero at steps 2 through 7 of both images. -/
theorem claim_C6_amended :
    (∀ f, f < 4 →
      lookup3 instructions_by_flag f 0 0 = MI|||CO ∧
      lookup3 instructions_by_flag f 0 1 = RO|||II|||CE ∧
      lookup3 instructions_by_flag f 0 2 = TR ∧
      (∀ s, 3 ≤ s → s < 8 → lookup3 instructions_by_flag f 0 s = 0)) ∧
    (InstructionRom.lt_rom_data[InstructionRom.NOP ||| InstructionRom.STEP0]? =
        some InstructionRom.MI ∧
      InstructionRom.rt_rom_data[InstructionRom.NOP ||| InstructionRom.STEP0]? =
        some InstructionRom.CO ∧
      InstructionRom.lt_rom_data[InstructionRom.NOP ||| InstructionRom.STEP1]? =
        some (InstructionRom.RO ||| InstructionRom.II) ∧
      InstructionRom.rt_rom_data[InstructionRom.NOP ||| InstructionRom.STEP1]? =
        some InstructionRom.CE ∧
      (∀ s, 2 ≤ s → s < 8 →
        InstructionRom.lt_rom_data[InstructionRom.NOP ||| s]? = some 0 ∧
        InstructionRom.rt_rom_data[InstructionRom.NOP ||| s]? = some 0)) := by
  refine ⟨by decide, ?_, ?_, ?_, ?_, ?_⟩
  · refine InstructionRom.lt_at _ _ ?_ ?_ <;> decide
  · refine InstructionRom.rt_at _ _ ?_ ?_ <;> decide
  · refine InstructionRom.lt_at _ _ ?_ ?_ <;> decide
  · refine InstructionRom.rt_at _ _ ?_ ?_ <;> decide
  · intro s h2 h8
    interval_cases s
    · constructor
      · refine InstructionRom.lt_at _ _ ?_ ?_ <;> decide
      · refine InstructionRom.rt_at _ _ ?_ ?_ <;> decide
    · constructor
      · refine InstructionRom.lt_at _ _ ?_ ?_ <;> decide
      · refine InstructionRom.rt_at _ _ ?_ ?_ <;> decide
    · constructor
      · refine InstructionRom.lt_at _ _ ?_ ?_ <;> decide
      · refine InstructionRom.rt_at _ _ ?_ ?_ <;> decide
    · constructor
      · refine InstructionRom.lt_zero _ ?_ ?_ <;> decide
      · refine InstructionRom.rt_zero _ ?_ ?_ <;> decide
    · constructor
      · refine InstructionRom.lt_zero _ ?_ ?_ <;> decide
      · refine InstructionRom.rt_zero _ ?_ ?_ <;> decide
    · constructor
      · refine InstructionRom.lt_zero _ ?_ ?_ <;> decide
      · refine InstructionRom.rt_zero _ ?_ ?_ <;> decide

/-- C6 witness: the amended NOP row in flag variant 3, and its empty step 5. -/
theorem claim_C6_amended_witness :
    3 < 4 ∧ lookup3 instructions_by_flag 3 0 2 = TR ∧
    lookup3 instructions_by_flag 3 0 5 = 0 :=
  ⟨by decide, (claim_C6_amended.1 3 (by decide)).2.2.1,
    (claim_C6_amended.1 3 (by decide)).2.2.2 5 (by decide) (by decide)⟩

/-- C7 counterexample: the full HLT row of the left instruction ROM image.
HL appears in the value at step 2 only; the values at all other steps, listed
explicitly, do not contain the HL bit.  Hence the instruction-rom revision
does not hold the halt signal across two consecutive steps, refuting the
claim for that revision. -/
theorem claim_C7_cex :
    InstructionRom.lt_rom_data[InstructionRom.HLT ||| 0]? = some InstructionRom.MI ∧
    InstructionRom.lt_rom_data[InstructionRom.HLT ||| 1]? =
      some (InstructionRom.RO ||| InstructionRom.II) ∧
    InstructionRom.lt_rom_data[InstructionRom.HLT ||| 2]? = some InstructionRom.HL ∧
    InstructionRom.lt_rom_data[InstructionRom.HLT ||| 3]? = some 0 ∧
    InstructionRom.lt_rom_data[InstructionRom.HLT ||| 4]? = some 0 ∧
    InstructionRom.lt_rom_data[InstructionRom.HLT ||| 5]? = some 0 ∧
    InstructionRom.lt_rom_data[InstructionRom.HLT ||| 6]? = some 0 ∧
    InstructionRom.lt_rom_data[InstructionRom.HLT ||| 7]? = some 0 ∧
    InstructionRom.MI &&& InstructionRom.HL = 0 ∧
    (InstructionRom.RO ||| InstructionRom.II) &&& InstructionRom.HL = 0 ∧
    (0 : Nat) &&& InstructionRom.HL = 0 ∧
    InstructionRom.HL &&& InstructionRom.HL ≠ 0 := by
  refine ⟨?_, ?_, ?_, ?_, ?_, ?_, ?_, ?_, by decide, by decide, by decide, by decide⟩
  · refine InstructionRom.lt_at _ _ ?_ ?_ <;> decide
  · refine InstructionRom.lt_at _ _ ?_ ?_ <;> decide
  · refine InstructionRom.lt_at _ _ ?_ ?_ <;> decide
  · refine InstructionRom.lt_at _ _ ?_ ?_ <;> decide
  · refine InstructionRom.lt_at _ _ ?_ ?_ <;> decide
  · refine InstructionRom.lt_zero _ ?_ ?_ <;> decide
  · refine InstructionRom.lt_zero _ ?_ ?_ <;> decide
  · refine InstructionRom.lt_zero _ ?_ ?_ <;> decide

/-- C7 amended: in the control-words revision the HLT row asserts HL at the
two consecutive steps 2 and 3 in every flag variant; in the instruction-rom
revision HL is asserted at step 2 and at no other step. -/
theorem claim_C7_amended :
    (∀ f, f < 4 →
      lookup3 instructions_by_flag f 15 2 &&& HL ≠ 0 ∧
      lookup3 instructions_by_flag f 15 3 &&& HL ≠ 0) ∧
    (InstructionRom.lt_rom_data[InstructionRom.HLT ||| 2]? = some InstructionRom.HL ∧
      InstructionRom.HL &&& InstructionRom.HL ≠ 0 ∧
      (∀ s, s < 8 → s ≠ 2 → ∀ v,
        InstructionRom.lt_rom_data[InstructionRom.HLT ||| s]? = some v →
        v &&& InstructionRom.HL = 0)) := by
  refine ⟨by decide, ?_, by decide, ?_⟩
  · refine InstructionRom.lt_at _ _ ?_ ?_ <;> decide
  · intro s h8 hne v hv
    have hval : ∀ w, InstructionRom.lt_rom_data[InstructionRom.HLT ||| s]? = some w →
        w &&& InstructionRom.HL = 0 → v &&& InstructionRom.HL = 0 := by
      intro w hw h0
      have : v = w := by
        have := hv.symm.trans hw
        exact Option.some.inj this.symm |>.symm
      rw [this]
      exact h0
    interval_cases s
    · refine hval InstructionRom.MI (InstructionRom.lt_at _ InstructionRom.MI ?_ ?_) ?_ <;>
        decide
    · refine hval (InstructionRom.RO ||| InstructionRom.II)
        (InstructionRom.lt_at _ (InstructionRom.RO ||| InstructionRom.II) ?_ ?_) ?_ <;> decide
    · exact absurd rfl hne
    · refine hval 0 (InstructionRom.lt_at _ 0 ?_ ?_) ?_ <;> decide
    · refine hval 0 (InstructionRom.lt_at _ 0 ?_ ?_) ?_ <;> decide
    · refine hval 0 (InstructionRom.lt_zero _ ?_ ?_) ?_ <;> decide
    · refine hval 0 (InstructionRom.lt_zero _ ?_ ?_) ?_ <;> decide
    · refine hval 0 (InstructionRom.lt_zero _ ?_ ?_) ?_ <;> decide

/-- C7 witness: HL is asserted at HLT steps 2 and 3 in flag variant 0. -/
theorem claim_C7_amended_witness :
    0 < 4 ∧ lookup3 instructions_by_flag 0 15 2 &&& HL ≠ 0 ∧
    lookup3 instructions_by_flag 0 15 3 &&& HL ≠ 0 :=
  ⟨by decide, (claim_C7_amended.1 0 (by decide)).1, (claim_C7_amended.1 0 (by decide)).2⟩

/-- C9 counterexample: the instruction-rom images are declared with 2048
bytes, yet address 2047 is never the target of any explicit assignment, so
not every address of every declared image is explicitly assigned. -/
theorem claim_C9_cex :
    InstructionRom.lt_rom_data.length = 2048 ∧
    2047 ∉ InstructionRom.ltAssigns.map Prod.fst := by
  constructor
  · have e : InstructionRom.lt_rom_data.length =
        (InstructionRom.applyAssigns InstructionRom.ltAssigns
          (List.replicate 2048 0)).length := rfl
    rw [e, InstructionRom.applyAssigns_length]
    simp
  · decide

/-- C9 amended: the control-words materialization writes every address of its
two 2048-byte images, each exactly once (its write list is 0..2047 without
repetition); the instruction-rom generator writes only its 80 declared
addresses, all below 125, the same address list in both images, and every
other address of its 2048-byte images holds zero from the initial fill rather
than from a lookup. -/
theorem claim_C9_amended :
    rom_data.length = 2048 ∧ rom_data_word0.length = 2048 ∧
    (∀ a, a < 2048 → a ∈ cwWriteAddrs) ∧ cwWriteAddrs.Nodup ∧
    InstructionRom.ltAssigns.length = 80 ∧ InstructionRom.rtAssigns.length = 80 ∧
    (∀ p, p ∈ InstructionRom.ltAssigns → p.1 < 125) ∧
    InstructionRom.ltAssigns.map Prod.fst = InstructionRom.rtAssigns.map Prod.fst ∧
    (∀ a, a < 2048 → a ∉ InstructionRom.ltAssigns.map Prod.fst →
      InstructionRom.lt_rom_data[a]? = some 0 ∧ InstructionRom.rt_rom_data[a]? = some 0) := by
  have hl := romFold_length cwWriteAddrs (List.replicate 2048 0, List.replicate 2048 0)
  have e1 : rom_data.length =
      (cwWriteAddrs.foldl romStep (List.replicate 2048 0, List.replicate 2048 0)).1.length := rfl
  have e2 : rom_data_word0.length =
      (cwWriteAddrs.foldl romStep (List.replicate 2048 0, List.replicate 2048 0)).2.length := rfl
  refine ⟨by rw [e1, hl.1]; simp, by rw [e2, hl.2]; simp, ?_, ?_, by decide, by decide,
    by decide, by decide, ?_⟩
  · intro a ha
    simpa [cwWriteAddrs] using List.mem_range.mpr ha
  · simpa [cwWriteAddrs] using List.nodup_range 2048
  · intro a ha hmem
    have hmem2 : a ∉ InstructionRom.rtAssigns.map Prod.fst := by
      have e : InstructionRom.ltAssigns.map Prod.fst =
          InstructionRom.rtAssigns.map Prod.fst := by decide
      rw [e] at hmem
      exact hmem
    exact ⟨InstructionRom.lt_zero a hmem ha, InstructionRom.rt_zero a hmem2 ha⟩

/-- C9 witness: address 2047 of the instruction-rom images holds the initial
zero fill. -/
theorem claim_C9_amended_witness :
    2047 < 2048 ∧
    InstructionRom.lt_rom_data[2047]? = some 0 ∧
    InstructionRom.rt_rom_data[2047]? = some 0 :=
  ⟨by decide, (claim_C9_amended.2.2.2.2.2.2.2.2 2047 (by decide) (by decide)).1,
    (claim_C9_amended.2.2.2.2.2.2.2.2 2047 (by decide) (by decide)).2⟩

end ControlWordsRom
